import Mathlib

/-!
# Verification of the deepdive calibration node

A shallow embedding of the `deepdive_registration` calibration node
(`src/unnamed/part_000`) of the AvatarWorld/deepdive repository, together
with theorems settling the frozen behavioural claims about it.

Modelling conventions:
* IEEE doubles are modelled as exact rationals (`ℚ`); every arithmetic
  operation in the relevant code paths (division by constants, rounding,
  subtraction, multiplication) is exact on the modelled inputs.
* `std::map` objects are modelled as association lists sorted by key,
  maintained through a sorted-upsert operation; iteration order of the
  C++ map is the list order.
* External library calls with no influence on the claims' structure
  (`cv::solvePnPRansac` together with the Eigen kinematic-chain
  composition, and `ceres::Solve`) are abstracted: the former by an
  oracle function, the latter by a frame condition stating that the
  optimiser may only rewrite parameter blocks that were not marked
  constant with `SetParameterBlockConstant`.
-/

namespace Deepdive

/-- A 6-dof rigid transform stored exactly like a `double[6]` in the source:
translation x, y, z then axis-angle rotation x, y, z.  The four solver
sub-blocks are `[0..1]` (`px, py`), `[2]` (`pz`), `[3..4]` (`rx, ry`) and
`[5]` (`rz`), matching the pointer offsets used in `Solve()`. -/
structure Pose6 where
  px : ℚ
  py : ℚ
  pz : ℚ
  rx : ℚ
  ry : ℚ
  rz : ℚ
deriving DecidableEq, Repr

/-- One light pulse of a `deepdive_ros::Light` message: sensor id,
measured sweep angle (radians) and pulse duration (seconds). -/
structure Pulse where
  sensor : Nat
  angle : ℚ
  duration : ℚ
deriving DecidableEq, Repr

/-- A `deepdive_ros::Light` message: tracker serial (`header.frame_id`),
lighthouse serial, sweep axis and the pulse list. -/
structure Light where
  frame_id : String
  lighthouse : String
  axis : Nat
  pulses : List Pulse
deriving DecidableEq, Repr

/-- A `geometry_msgs::TransformStamped` as seen by `CorrectionCallback`:
parent and child frame ids plus the raw transform payload (translation
and quaternion components). -/
structure TransformS where
  frame_id : String
  child_frame_id : String
  tx : ℚ
  ty : ℚ
  tz : ℚ
  qw : ℚ
  qx : ℚ
  qy : ℚ
  qz : ℚ
deriving DecidableEq, Repr

/-- Per-lighthouse state (`Lighthouse` entries of `lighthouses_`):
pose in the vive frame `vTl`, the 10 calibration parameters
(`NUM_PARAMS * 2`), and the readiness flag. -/
structure LH where
  vTl : Pose6
  params : List ℚ
  ready : Bool
deriving DecidableEq, Repr

/-- Per-tracker state (`Tracker` entries of `trackers_`): head-to-body
transform `bTh`, head-to-light transform `tTh`, the flattened sensor
table, and the readiness flag. -/
structure TR where
  bTh : Pose6
  tTh : Pose6
  sensors : List ℚ
  ready : Bool
deriving DecidableEq, Repr

/-- The global configuration parameters of the calibration node that the
claims depend on, with the same names as the `_`-suffixed globals. -/
structure Config where
  res : ℚ
  thresh_count : Nat
  thresh_angle : ℚ
  thresh_duration : ℚ
  refine_registration : Bool
  refine_lighthouses : Bool
  refine_extrinsics : Bool
  refine_sensors : Bool
  refine_head : Bool
  refine_params : Bool
  force2d : Bool
  smoothing : ℚ
  frame_world : String
  frame_body : String
deriving DecidableEq, Repr

/-- The persistent global parameter state mutated (or not) by `Solve()`:
the world-to-vive registration `wTv_` and the lighthouse and tracker
maps.  The association lists model the `std::map`s: entries in key
order, first entry = `begin()`. -/
structure Globals where
  wTv : Pose6
  lighthouses : List (String × LH)
  trackers : List (String × TR)
deriving DecidableEq, Repr

/-- Modelled from the spec: `NUM_SENSORS` is declared in the shared
header `deepdive.hh`, which is not under `src/`; the sibling filter node
(`src/unnamed/part_001`) bounds the sensor table by
`MAX_NUM_SENSORS = 32`, so the table size is taken to be 32.  None of
the claims depends on the exact value. -/
def NUM_SENSORS : Nat := 32

/-- C's `round` (round half away from zero), applied by `Solve()` to
`timestamp / resolution`. -/
def roundHalfAway (q : ℚ) : ℤ :=
  if q < 0 then -⌊-q + 1/2⌋ else ⌊q + 1/2⌋

/-- The epoch bucket key `ros::Time(round(t.toSec() / res_) * res_)`
used for both measurement and correction bundling. -/
def epochKey (res t : ℚ) : ℚ :=
  (roundHalfAway (t / res) : ℚ) * res

/-- Sorted-map upsert: insert `(k, v)` into an association list sorted
by key, replacing an existing binding of `k`.  Models assignment through
`operator[]` on a `std::map`. -/
def mapUpsert {α : Type} (k : ℚ) (v : α) : List (ℚ × α) → List (ℚ × α)
  | [] => [(k, v)]
  | (a, b) :: r =>
    if k < a then (k, v) :: (a, b) :: r
    else if k = a then (k, v) :: r
    else (a, b) :: mapUpsert k v r

/-- The key of the map entry preceding key `k` in a sorted map, if any:
models `std::prev(m.find(k))` together with the `p != c` guard in the
motion-smoothing code (a predecessor exists iff some key is below `k`). -/
def predKey {α : Type} (m : List (ℚ × α)) (k : ℚ) : Option ℚ :=
  ((m.map Prod.fst).filter (fun x => decide (x < k))).getLast?

/-- Consecutive pairs of a list: `chainPairs [a, b, c] = [(a,b), (b,c)]`.
Used to describe the motion-smoothness links produced over an ascending
sequence of seeded epochs. -/
def chainPairs : List ℚ → List (ℚ × ℚ)
  | a :: b :: r => (a, b) :: chainPairs (b :: r)
  | _ => []

/-- Modelled from the spec: `Mean` from the shared header `deepdive.hh`
(not under `src/`).  Per the spec's Pose Bootstrapper section, the mean
angle of a sample list is available iff the list has at least one
sample. -/
def meanSamples (l : List ℚ) : Option ℚ :=
  if l.isEmpty then none else some (l.sum / l.length)

/-- Modelled from the spec: the `Statistic` running-mean tracker from
`deepdive.hh` (not under `src/`); `Feed` appends a value and `Mean`
returns the arithmetic mean of everything fed so far. -/
def meanQ (l : List ℚ) : ℚ := l.sum / l.length

/-! ## Measurement bundling (`Solve()`, lines 260–289) -/

/-- The nested bundle table
`bundle[tracker][lighthouse][epoch][sensor][axis] -> samples`,
represented as its lookup function. -/
def BundleFun : Type := String → String → ℚ → Nat → Nat → List ℚ

/-- The empty bundle. -/
def bundleEmpty : BundleFun := fun _ _ _ _ _ => []

/-- `bundle[ts][ls][e][s][a].push_back(x)`. -/
def bundleAdd (b : BundleFun) (ts ls : String) (e : ℚ) (s a : Nat) (x : ℚ) :
    BundleFun :=
  fun ts' ls' e' s' a' =>
    if ts' = ts ∧ ls' = ls ∧ e' = e ∧ s' = s ∧ a' = a then
      b ts' ls' e' s' a' ++ [x]
    else b ts' ls' e' s' a'

/-- Bundle one stored measurement: every pulse's angle is appended into
the bucket of the epoch of the measurement's stored timestamp. -/
def bundleObs (cfg : Config) (b : BundleFun) (tm : ℚ) (l : Light) : BundleFun :=
  l.pulses.foldl
    (fun b p =>
      bundleAdd b l.frame_id l.lighthouse (epochKey cfg.res tm) p.sensor l.axis
        p.angle)
    b

/-- Bundle the whole measurement map (iterated in stored-time order). -/
def bundleAll (cfg : Config) (ms : List (ℚ × Light)) : BundleFun :=
  ms.foldl (fun b m => bundleObs cfg b m.1 m.2) bundleEmpty

/-- The closed-form contribution of a single stored measurement to the
bucket `(ts, ls, e, s, a)`: its pulses' angles for sensor `s`, provided
the measurement matches the tracker, lighthouse and axis and its stored
timestamp rounds into epoch `e`. -/
def obsContrib (cfg : Config) (ts ls : String) (e : ℚ) (s a : Nat)
    (m : ℚ × Light) : List ℚ :=
  if m.2.frame_id = ts ∧ m.2.lighthouse = ls ∧ epochKey cfg.res m.1 = e ∧
      m.2.axis = a then
    (m.2.pulses.filter (fun p => decide (p.sensor = s))).map Pulse.angle
  else []

/-- Axis-angle conversion oracle for the Eigen
quaternion-to-`AngleAxisd` conversion used when bundling corrections
(external library numeric code). -/
def QuatToAA : Type := ℚ × ℚ × ℚ × ℚ → ℚ × ℚ × ℚ

/-- The 6-vector stored for one correction: translation, then the
axis-angle vector of its rotation. -/
def corrPose (q2aa : QuatToAA) (t : TransformS) : Pose6 :=
  let aa := q2aa (t.qw, t.qx, t.qy, t.qz)
  { px := t.tx, py := t.ty, pz := t.tz
    rx := aa.1, ry := aa.2.1, rz := aa.2.2 }

/-- Correction bundling (`Solve()`, lines 272–288): each correction is
written to the bucket of the epoch of its stored timestamp; a later
correction in the same epoch overwrites an earlier one. -/
def corrBundle (cfg : Config) (q2aa : QuatToAA) (cs : List (ℚ × TransformS)) :
    ℚ → Option Pose6 :=
  cs.foldl
    (fun f c => fun e =>
      if e = epochKey cfg.res c.1 then some (corrPose q2aa c.2) else f e)
    (fun _ => none)

/-! ## Pose bootstrapping (`Solve()`, lines 298–429) -/

/-- The number of sensors of the `(lighthouse, tracker, epoch)` triple
having at least one sample on both sweep axes: the size of the `obj`/
`img` correspondence lists built before the perspective-pose attempt. -/
def countValid (b : BundleFun) (lt tt : String) (e : ℚ) : Nat :=
  ((List.range NUM_SENSORS).filter
    (fun s => (meanSamples (b tt lt e s 0)).isSome &&
              (meanSamples (b tt lt e s 1)).isSome)).length

/-- Oracle for `cv::solvePnPRansac` composed with the Eigen kinematic
chain (lines 355–382): for a `(lighthouse, tracker, epoch)` triple it
returns the seeded world-frame body pose, or `none` when the RANSAC
perspective solve fails. -/
def PnPOracle : Type := String → String → ℚ → Option Pose6

/-- The evolving state of the bootstrap loop: the body-pose map `wTb`,
the heights fed to the `Statistic`, and the residual blocks and
bookkeeping accumulated into the ceres problem. -/
structure BootState where
  wTb : List (ℚ × Pose6)
  heights : List ℚ
  groupBlocks : List (String × String × ℚ)
  motionLinks : List (ℚ × ℚ)
  attempts : List (String × String × ℚ)
  count : Nat
deriving DecidableEq, Repr

/-- The empty bootstrap state. -/
def bootInit : BootState :=
  { wTb := [], heights := [], groupBlocks := [], motionLinks := []
    attempts := [], count := 0 }

/-- One epoch of the bootstrap loop body (lines 324–429) for the pair
`(lt, tt)`.  When at least 4 sensor correspondences exist a perspective
solve is attempted; on success the composed pose seeds `wTb`, its height
feeds the running mean, a bearing residual group is recorded, under
`force2d_` the two horizontal-axis rotation components are zeroed (the
source zeroes `wTb[t][3..4]` right after adding the residual block; the
net effect on the stored entry is folded into the single upsert), and
with a positive smoothing weight a motion link to the predecessor epoch
is recorded.  `count` increments for every attempted epoch. -/
def stepEpoch (cfg : Config) (pnp : PnPOracle) (b : BundleFun)
    (lt tt : String) (st : BootState) (e : ℚ) : BootState :=
  if 3 < countValid b lt tt e then
    let st1 := { st with attempts := st.attempts ++ [(lt, tt, e)] }
    let st2 :=
      match pnp lt tt e with
      | some pose =>
        let stored := if cfg.force2d then { pose with rx := 0, ry := 0 } else pose
        let wTb' := mapUpsert e stored st1.wTb
        let st' := { st1 with
          wTb := wTb'
          heights := st1.heights ++ [pose.pz]
          groupBlocks := st1.groupBlocks ++ [(lt, tt, e)] }
        if 0 < cfg.smoothing then
          match predKey wTb' e with
          | some pk => { st' with motionLinks := st'.motionLinks ++ [(pk, e)] }
          | none => st'
        else st'
      | none => st1
    { st2 with count := st2.count + 1 }
  else st

/-- Insert a key into a sorted key list without duplicating it: the key
set of a `std::map` after one more `operator[]` access. -/
def insertKey (k : ℚ) : List ℚ → List ℚ
  | [] => [k]
  | a :: r =>
    if k < a then k :: a :: r
    else if k = a then a :: r
    else a :: insertKey k r

/-- The ascending epoch keys of the bundle slice `bundle[ts][ls]`:
the epochs of the stored measurements for that pair, without
duplicates, in `std::map` (ascending) order. -/
def epochsFor (cfg : Config) (ms : List (ℚ × Light)) (ts ls : String) :
    List ℚ :=
  ms.foldl
    (fun es m =>
      if m.2.frame_id = ts ∧ m.2.lighthouse = ls then
        insertKey (epochKey cfg.res m.1) es
      else es)
    []

/-- The whole bootstrap phase: iterate lighthouses, then trackers, then
the pair's epochs in ascending order. -/
def runBootstrap (cfg : Config) (pnp : PnPOracle) (ms : List (ℚ × Light))
    (lhs : List (String × LH)) (trs : List (String × TR)) : BootState :=
  lhs.foldl
    (fun st lp =>
      trs.foldl
        (fun st tp =>
          (epochsFor cfg ms tp.1 lp.1).foldl
            (stepEpoch cfg pnp (bundleAll cfg ms) lp.1 tp.1) st)
        st)
    bootInit

/-- After the bootstrap loops, under `force2d_` every body pose's
vertical position is overwritten with the mean of the seeded heights
(lines 450–455). -/
def preparedWTb (cfg : Config) (bs : BootState) : List (ℚ × Pose6) :=
  if cfg.force2d then
    bs.wTb.map (fun ep => (ep.1, { ep.2 with pz := meanQ bs.heights }))
  else bs.wTb

/-- The `MotionCost` residual (lines 186–209): componentwise difference
of the previous and next pose, each multiplied by the smoothing
weight. -/
def motionResidual (smoothing : ℚ) (prev next : Pose6) : List ℚ :=
  ([prev.px - next.px, prev.py - next.py, prev.pz - next.pz,
    prev.rx - next.rx, prev.ry - next.ry, prev.rz - next.rz]).map
    (fun r => r * smoothing)

/-! ## Parameter freezing and the abstract optimiser -/

/-- Identifiers for the ceres parameter blocks of the problem. -/
inductive BlockId where
  | wTv : BlockId
  | vTl : String → BlockId
  | lhParams : String → BlockId
  | bTh : String → BlockId
  | tTh : String → BlockId
  | sensors : String → BlockId
  | posXY : ℚ → BlockId
  | posZ : ℚ → BlockId
  | rotXY : ℚ → BlockId
  | rotZ : ℚ → BlockId
deriving DecidableEq

/-- Which parameter blocks `Solve()` marks constant
(`SetParameterBlockConstant`, lines 401–406 and 431–446).  Tracker
blocks are frozen inside the lighthouse loop, so only when at least one
lighthouse exists; the pose of the first lighthouse of the map is frozen
whenever `refine_lighthouses_` is false **or** it is `begin()`; the
vertical-position and horizontal-rotation sub-blocks of every seeded
body pose are frozen under `force2d_`. -/
def isConstBlock (cfg : Config) (lhs : List (String × LH))
    (trs : List (String × TR)) (wTbKeys : List ℚ) : BlockId → Bool
  | .wTv => !cfg.refine_registration
  | .vTl n =>
    decide (n ∈ lhs.map Prod.fst) &&
      (!cfg.refine_lighthouses || decide (lhs.head?.map Prod.fst = some n))
  | .lhParams n => !cfg.refine_params && decide (n ∈ lhs.map Prod.fst)
  | .bTh n => !cfg.refine_extrinsics && !lhs.isEmpty &&
      decide (n ∈ trs.map Prod.fst)
  | .tTh n => !cfg.refine_head && !lhs.isEmpty &&
      decide (n ∈ trs.map Prod.fst)
  | .sensors n => !cfg.refine_sensors && !lhs.isEmpty &&
      decide (n ∈ trs.map Prod.fst)
  | .posXY _ => false
  | .posZ e => cfg.force2d && decide (e ∈ wTbKeys)
  | .rotXY e => cfg.force2d && decide (e ∈ wTbKeys)
  | .rotZ _ => false

/-- How many lighthouse-pose parameter blocks a solve holds constant:
the number of serials in the lighthouse map whose `vTl` block is marked
constant. -/
def vTlConstCount (cfg : Config) (lhs : List (String × LH))
    (trs : List (String × TR)) (wTbKeys : List ℚ) : Nat :=
  ((lhs.map Prod.fst).filter
    (fun n => isConstBlock cfg lhs trs wTbKeys (BlockId.vTl n))).length

/-- Frame condition of `ceres::Solve` on one lighthouse entry. -/
def frameLH (consts : BlockId → Bool) (a b : String × LH) : Prop :=
  b.1 = a.1 ∧ b.2.ready = a.2.ready ∧
  (consts (BlockId.vTl a.1) = true → b.2.vTl = a.2.vTl) ∧
  (consts (BlockId.lhParams a.1) = true → b.2.params = a.2.params)

/-- Frame condition of `ceres::Solve` on one tracker entry. -/
def frameTR (consts : BlockId → Bool) (a b : String × TR) : Prop :=
  b.1 = a.1 ∧ b.2.ready = a.2.ready ∧
  (consts (BlockId.bTh a.1) = true → b.2.bTh = a.2.bTh) ∧
  (consts (BlockId.tTh a.1) = true → b.2.tTh = a.2.tTh) ∧
  (consts (BlockId.sensors a.1) = true → b.2.sensors = a.2.sensors)

/-- Frame condition of `ceres::Solve` on one body-pose entry, sub-block
by sub-block. -/
def framePose (consts : BlockId → Bool) (a b : ℚ × Pose6) : Prop :=
  b.1 = a.1 ∧
  (consts (BlockId.posXY a.1) = true → b.2.px = a.2.px ∧ b.2.py = a.2.py) ∧
  (consts (BlockId.posZ a.1) = true → b.2.pz = a.2.pz) ∧
  (consts (BlockId.rotXY a.1) = true → b.2.rx = a.2.rx ∧ b.2.ry = a.2.ry) ∧
  (consts (BlockId.rotZ a.1) = true → b.2.rz = a.2.rz)

/-- The contract of `ceres::Solve`: the optimiser rewrites parameter
blocks in place but never changes a block marked constant, never adds or
removes map entries, and never touches non-parameter data (serials,
readiness flags). -/
def CeresFrame (consts : BlockId → Bool) (g : Globals)
    (w : List (ℚ × Pose6)) (g' : Globals) (w' : List (ℚ × Pose6)) : Prop :=
  (consts BlockId.wTv = true → g'.wTv = g.wTv) ∧
  g'.lighthouses.length = g.lighthouses.length ∧
  (∀ p ∈ g.lighthouses.zip g'.lighthouses, frameLH consts p.1 p.2) ∧
  g'.trackers.length = g.trackers.length ∧
  (∀ p ∈ g.trackers.zip g'.trackers, frameTR consts p.1 p.2) ∧
  w'.length = w.length ∧
  (∀ p ∈ w.zip w', framePose consts p.1 p.2)

instance (consts : BlockId → Bool) (a b : String × LH) :
    Decidable (frameLH consts a b) := by
  unfold frameLH
  infer_instance

instance (consts : BlockId → Bool) (a b : String × TR) :
    Decidable (frameTR consts a b) := by
  unfold frameTR
  infer_instance

instance (consts : BlockId → Bool) (a b : ℚ × Pose6) :
    Decidable (framePose consts a b) := by
  unfold framePose
  infer_instance

instance (consts : BlockId → Bool) (g : Globals) (w : List (ℚ × Pose6))
    (g' : Globals) (w' : List (ℚ × Pose6)) :
    Decidable (CeresFrame consts g w g' w') := by
  unfold CeresFrame
  infer_instance

/-- The behaviour of `Solve()` (lines 212–581) as a relation from the
pre-state to `(post-globals, final body-pose map, return value,
persisted?)`.  With an empty measurement map it returns `false` at once,
mutating nothing (lines 219–222).  Otherwise it bundles the
measurements, bootstraps the body poses, freezes the configured blocks
and runs ceres; `usable` is `summary.IsSolutionUsable()`, the return
value, and results are persisted (`SendTransforms`, path and
performance outputs) exactly when it holds. -/
inductive SolveRel (cfg : Config) (pnp : PnPOracle) (g : Globals)
    (ms : List (ℚ × Light)) (corrs : List (ℚ × TransformS)) :
    Globals × List (ℚ × Pose6) × Bool × Bool → Prop
  | empty :
      ms = [] →
      SolveRel cfg pnp g ms corrs (g, [], false, false)
  | solved (g' : Globals) (w' : List (ℚ × Pose6)) (usable : Bool) :
      ms ≠ [] →
      CeresFrame
        (isConstBlock cfg g.lighthouses g.trackers
          ((runBootstrap cfg pnp ms g.lighthouses g.trackers).wTb.map
            Prod.fst))
        g
        (preparedWTb cfg (runBootstrap cfg pnp ms g.lighthouses g.trackers))
        g' w' →
      SolveRel cfg pnp g ms corrs (g', w', usable, usable)

/-! ## Ingestion callbacks and the trigger state machine -/

/-- The full mutable state of the node visible to the callbacks. -/
structure SysState where
  recording : Bool
  globals : Globals
  measurements : List (ℚ × Light)
  corrections : List (ℚ × TransformS)
deriving DecidableEq, Repr

/-- Association-list lookup by serial, modelling `map.find`. -/
def serialLookup {α : Type} (n : String) : List (String × α) → Option α
  | [] => none
  | (a, b) :: r => if a = n then some b else serialLookup n r

/-- The pulse-rejection test of `LightCallback` (lines 599–605): a pulse
is erased iff its angle exceeds `thresh_angle_ / 57.2958` **and** its
duration is below `thresh_duration_ / 1e-6` (the source combines the
two comparisons with `&&`). -/
def pulseErased (cfg : Config) (p : Pulse) : Bool :=
  decide (cfg.thresh_angle / (572958/10000 : ℚ) < p.angle) &&
  decide (p.duration < cfg.thresh_duration / (1/1000000 : ℚ))

/-- `LightCallback` (lines 585–610): ignore the message unless recording
and both the tracker and the lighthouse are known and ready; erase the
pulses failing the threshold test; drop the whole observation when fewer
than `thresh_count_` pulses remain; otherwise store it under the current
time. -/
def lightCallback (cfg : Config) (s : SysState) (tnow : ℚ) (msg : Light) :
    SysState :=
  if !s.recording ||
      (serialLookup msg.frame_id s.globals.trackers).isNone ||
      (serialLookup msg.lighthouse s.globals.lighthouses).isNone ||
      !((serialLookup msg.frame_id s.globals.trackers).elim false TR.ready) ||
      !((serialLookup msg.lighthouse s.globals.lighthouses).elim false LH.ready)
  then s
  else
    let kept := msg.pulses.filter (fun p => !pulseErased cfg p)
    if kept.length < cfg.thresh_count then s
    else
      { s with measurements :=
          mapUpsert tnow { msg with pulses := kept } s.measurements }

/-- `CorrectionCallback` (lines 612–623): when recording, store every
transform of the TF message whose parent frame is the configured world
frame and whose child frame is the configured body frame; ignore all
others; when not recording, do nothing. -/
def correctionCallback (cfg : Config) (s : SysState) (tnow : ℚ)
    (msg : List TransformS) : SysState :=
  if !s.recording then s
  else
    let cs' := msg.foldl
      (fun cs t =>
        if t.frame_id = cfg.frame_world ∧ t.child_frame_id = cfg.frame_body
        then mapUpsert tnow t cs
        else cs)
      s.corrections
    { s with corrections := cs' }

/-- The observable outcome of `TriggerCallback`: the post-state, the
service response (`success`, `message`), and — as a ghost observation
for the temporal claim — the value the `recording_` flag holds while
`Solve()` executes (`none` when no solve happens). -/
structure TriggerOut where
  state : SysState
  success : Bool
  message : String
  recordingDuringSolve : Option Bool
deriving DecidableEq, Repr

/-- `TriggerCallback` (lines 625–647).  Not recording: report
"Recording started.".  Recording: call `Solve()` — note that the
`recording_` flag is still `true` at that point — then clear the
measurement and correction maps regardless of the outcome.  In both
cases the flag is toggled only at the very end. -/
inductive TriggerRel (cfg : Config) (pnp : PnPOracle) (s : SysState) :
    TriggerOut → Prop
  | start :
      s.recording = false →
      TriggerRel cfg pnp s
        { state := { s with recording := true }
          success := true
          message := "Recording started."
          recordingDuringSolve := none }
  | solve (g' : Globals) (w' : List (ℚ × Pose6)) (usable persisted : Bool) :
      s.recording = true →
      SolveRel cfg pnp s.globals s.measurements s.corrections
        (g', w', usable, persisted) →
      TriggerRel cfg pnp s
        { state :=
            { recording := false
              globals := g'
              measurements := []
              corrections := [] }
          success := usable
          message :=
            if usable then "Recording stopped. Solution found."
            else "Recording stopped. Solution not found."
          recordingDuringSolve := some s.recording }

/-- The pulse-removal condition as the claim's sentence states it, for
comparison with `pulseErased`: remove a pulse when its angle exceeds the
angle threshold **or** its duration is below the duration threshold. -/
def pulseErasedClaim (cfg : Config) (p : Pulse) : Bool :=
  decide (cfg.thresh_angle / (572958/10000 : ℚ) < p.angle) ||
  decide (p.duration < cfg.thresh_duration / (1/1000000 : ℚ))

/-! ## Concrete inputs used by witnesses and counterexamples -/

/-- The all-zero transform. -/
def zeroPose : Pose6 := { px := 0, py := 0, pz := 0, rx := 0, ry := 0, rz := 0 }

/-- A sample bootstrap pose with height 5. -/
def seedPose : Pose6 := { px := 1, py := 2, pz := 5, rx := 3, ry := 4, rz := 6 }

/-- An oracle whose perspective solve always succeeds with `seedPose`. -/
def pnpAlways : PnPOracle := fun _ _ _ => some seedPose

/-- A ready lighthouse entry. -/
def lhReady : LH := { vTl := zeroPose, params := [], ready := true }

/-- A ready tracker entry. -/
def trReady : TR := { bTh := zeroPose, tTh := zeroPose, sensors := [], ready := true }

/-- A light message of tracker "T" for a given lighthouse and axis with
four in-threshold pulses on sensors 0–3. -/
def mkMsg (lh : String) (axis : Nat) : Light :=
  { frame_id := "T", lighthouse := lh, axis := axis
    pulses := [⟨0, 1, 1⟩, ⟨1, 1, 1⟩, ⟨2, 1, 1⟩, ⟨3, 1, 1⟩] }

/-- Like `mkMsg` but with only three sensors. -/
def mkMsg3 (lh : String) (axis : Nat) : Light :=
  { frame_id := "T", lighthouse := lh, axis := axis
    pulses := [⟨0, 1, 1⟩, ⟨1, 1, 1⟩, ⟨2, 1, 1⟩] }

/-- A baseline configuration mirroring the defaults of the globals in
the source (resolution 1 is used so the sample timestamps bucket into
epochs 0 and 1). -/
def cfgBase : Config :=
  { res := 1, thresh_count := 4, thresh_angle := 60, thresh_duration := 1
    refine_registration := true, refine_lighthouses := false
    refine_extrinsics := false, refine_sensors := false
    refine_head := false, refine_params := false
    force2d := false, smoothing := 10
    frame_world := "world", frame_body := "body" }

/-- Measurements of one tracker seen by lighthouses "A" and "B", both
axes, four sensors, spanning epochs 0 and 1 at resolution 1. -/
def msgsAB : List (ℚ × Light) :=
  [(1/100, mkMsg "A" 0), (2/100, mkMsg "A" 1),
   (3/100, mkMsg "B" 0), (4/100, mkMsg "B" 1),
   (101/100, mkMsg "A" 0), (102/100, mkMsg "A" 1),
   (103/100, mkMsg "B" 0), (104/100, mkMsg "B" 1)]

/-- The lighthouse-"A" measurements alone (epochs 0 and 1). -/
def msgsA : List (ℚ × Light) :=
  [(1/100, mkMsg "A" 0), (2/100, mkMsg "A" 1),
   (101/100, mkMsg "A" 0), (102/100, mkMsg "A" 1)]

/-- Lighthouse-"A" measurements with only three valid sensors. -/
def msgsA3 : List (ℚ × Light) :=
  [(1/100, mkMsg3 "A" 0), (2/100, mkMsg3 "A" 1)]

/-- Globals with lighthouses "A", "B" and tracker "T". -/
def gAB : Globals :=
  { wTv := zeroPose, lighthouses := [("A", lhReady), ("B", lhReady)]
    trackers := [("T", trReady)] }

/-- Globals with lighthouse "A" and tracker "T". -/
def gA : Globals :=
  { wTv := zeroPose, lighthouses := [("A", lhReady)]
    trackers := [("T", trReady)] }

/-- Globals with empty lighthouse and tracker maps. -/
def gEmpty : Globals := { wTv := zeroPose, lighthouses := [], trackers := [] }

/-- A recording system state over `gA` with empty accumulators. -/
def sysRec : SysState :=
  { recording := true, globals := gA, measurements := [], corrections := [] }

/-- The configuration for the planar-motion witness. -/
def cfg7 : Config := { cfgBase with force2d := true }

/-- The bootstrap state of the planar-motion witness scenario. -/
def bs7 : BootState :=
  runBootstrap cfg7 pnpAlways msgsA gA.lighthouses gA.trackers

/-- The prepared body-pose map of the planar-motion witness scenario. -/
def w07 : List (ℚ × Pose6) := preparedWTb cfg7 bs7

/-- The planar-motion seed pose after zeroing the horizontal rotations
and overwriting the height with the mean (5). -/
def p7 : Pose6 := { px := 1, py := 2, pz := 5, rx := 0, ry := 0, rz := 6 }

/-! ## Generic helper lemmas -/

/-- A fold preserves any invariant preserved by each step. -/
theorem foldl_inv {α β : Type} {P : β → Prop} {f : β → α → β} :
    ∀ (l : List α) (st : β), P st →
      (∀ s a, a ∈ l → P s → P (f s a)) → P (l.foldl f st)
  | [], _, h, _ => h
  | a :: l, st, h, hstep =>
    foldl_inv l (f st a) (hstep st a (List.Mem.head _) h)
      (fun s b hb hs => hstep s b (List.Mem.tail _ hb) hs)

/-- Members of an upserted map are the new binding or old members. -/
theorem mem_mapUpsert {α : Type} {k : ℚ} {v : α} :
    ∀ {m : List (ℚ × α)} {ep : ℚ × α},
      ep ∈ mapUpsert k v m → ep = (k, v) ∨ ep ∈ m := by
  intro m
  induction m with
  | nil =>
    intro ep h
    simp only [mapUpsert, List.mem_singleton] at h
    exact Or.inl h
  | cons hd r ih =>
    obtain ⟨a, b⟩ := hd
    intro ep h
    simp only [mapUpsert] at h
    split at h
    · rw [List.mem_cons] at h
      exact h
    · split at h
      · rw [List.mem_cons] at h
        rcases h with h | h
        · exact Or.inl h
        · exact Or.inr (List.mem_cons_of_mem _ h)
      · rw [List.mem_cons] at h
        rcases h with h | h
        · exact Or.inr (h ▸ List.mem_cons_self _ _)
        · rcases ih h with h' | h'
          · exact Or.inl h'
          · exact Or.inr (List.mem_cons_of_mem _ h')

/-- Upserting a key above the whole map appends the binding. -/
theorem mapUpsert_append {α : Type} {k : ℚ} {v : α} :
    ∀ {m : List (ℚ × α)}, (∀ x ∈ m.map Prod.fst, x < k) →
      mapUpsert k v m = m ++ [(k, v)] := by
  intro m
  induction m with
  | nil => intro _; rfl
  | cons hd r ih =>
    obtain ⟨a, b⟩ := hd
    intro hb
    have ha : a < k := hb a (by simp)
    simp only [mapUpsert, if_neg (asymm ha), if_neg (ne_of_gt ha), List.cons_append,
      List.cons.injEq, true_and]
    exact ih (fun x hx => hb x (by simp [hx]))

/-- A key returned by `predKey` is a key of the map. -/
theorem predKey_mem {α : Type} {m : List (ℚ × α)} {k pk : ℚ}
    (h : predKey m k = some pk) : pk ∈ m.map Prod.fst := by
  have hmem : pk ∈ (m.map Prod.fst).filter (fun x => decide (x < k)) := by
    have := List.mem_getLast?_eq_getLast (l :=
      (m.map Prod.fst).filter (fun x => decide (x < k))) (x := pk)
    rcases this (by simp [predKey] at h; simp [Option.mem_def, h]) with ⟨hne, heq⟩
    exact heq ▸ List.getLast_mem hne
  exact List.mem_of_mem_filter hmem

/-- `predKey` after appending the new top key returns the previous last
key. -/
theorem predKey_append {α : Type} {m : List (ℚ × α)} {k : ℚ} {v : α}
    (hb : ∀ x ∈ m.map Prod.fst, x < k) :
    predKey (m ++ [(k, v)]) k = (m.map Prod.fst).getLast? := by
  unfold predKey
  rw [List.map_append]
  rw [List.filter_append]
  have h1 : (m.map Prod.fst).filter (fun x => decide (x < k)) = m.map Prod.fst :=
    List.filter_eq_self.mpr (fun a ha => by simpa using hb a ha)
  have h2 : ([(k, v)].map Prod.fst).filter (fun x => decide (x < k)) = [] := by
    simp
  rw [h1, h2, List.append_nil]

/-- `chainPairs` over a list extended by a final element. -/
theorem chainPairs_append (k : ℚ) :
    ∀ (l : List ℚ),
      chainPairs (l ++ [k]) =
        chainPairs l ++
          (match l.getLast? with
           | some a => [(a, k)]
           | none => []) := by
  intro l
  induction l with
  | nil => rfl
  | cons a r ih =>
    cases r with
    | nil => rfl
    | cons b r' =>
      have step : chainPairs ((a :: b :: r') ++ [k]) =
          (a, b) :: chainPairs ((b :: r') ++ [k]) := rfl
      rw [step, ih, List.getLast?_cons_cons]
      rfl

/-- Pair every member of the second list of a zip with its partner. -/
theorem zip_pair_of_mem_right {α β : Type} {w : List α} {w' : List β}
    (hlen : w'.length = w.length) {b : β} (hb : b ∈ w') :
    ∃ a ∈ w, (a, b) ∈ w.zip w' := by
  rcases List.mem_iff_getElem.mp hb with ⟨i, hi, rfl⟩
  have hiw : i < w.length := hlen ▸ hi
  have hz : i < (w.zip w').length := by
    simp [List.length_zip, hlen]
    omega
  refine ⟨w[i], List.getElem_mem hiw, ?_⟩
  have hzel := @List.getElem_zip _ _ w w' i hz
  exact hzel ▸ List.getElem_mem hz

/-- Membership in `insertKey`. -/
theorem mem_insertKey {k x : ℚ} :
    ∀ {l : List ℚ}, x ∈ insertKey k l ↔ x = k ∨ x ∈ l := by
  intro l
  induction l with
  | nil => simp [insertKey]
  | cons a r ih =>
    simp only [insertKey]
    split
    · simp
    · split
      · rename_i h1 hk
        subst hk
        simp only [List.mem_cons]
        tauto
      · simp only [List.mem_cons, ih]
        tauto

/-- `insertKey` preserves strict sortedness. -/
theorem insertKey_pairwise {k : ℚ} :
    ∀ {l : List ℚ}, l.Pairwise (· < ·) →
      (insertKey k l).Pairwise (· < ·) := by
  intro l
  induction l with
  | nil => intro _; simp [insertKey]
  | cons a r ih =>
    intro hp
    rcases List.pairwise_cons.mp hp with ⟨ha, hr⟩
    simp only [insertKey]
    split
    · rename_i hlt
      refine List.pairwise_cons.mpr ⟨?_, hp⟩
      intro x hx
      rcases List.mem_cons.mp hx with rfl | hx
      · exact hlt
      · exact lt_trans hlt (ha x hx)
    · split
      · exact hp
      · rename_i h1 h2
        have hak : a < k := lt_of_le_of_ne (not_lt.mp h1) (Ne.symm h2)
        refine List.pairwise_cons.mpr ⟨?_, ih hr⟩
        intro x hx
        rcases mem_insertKey.mp hx with rfl | hx
        · exact hak
        · exact ha x hx

/-- The epoch list of a bundle slice is strictly ascending. -/
theorem epochsFor_pairwise (cfg : Config) (ms : List (ℚ × Light))
    (ts ls : String) : (epochsFor cfg ms ts ls).Pairwise (· < ·) := by
  unfold epochsFor
  refine foldl_inv (P := fun l : List ℚ => l.Pairwise (· < ·)) ms [] (by simp) ?_
  intro es m _ hp
  dsimp only
  split
  · exact insertKey_pairwise hp
  · exact hp

/-- Membership in the epoch list of a bundle slice. -/
theorem mem_epochsFor {cfg : Config} {ms : List (ℚ × Light)}
    {ts ls : String} {e : ℚ} :
    e ∈ epochsFor cfg ms ts ls ↔
      ∃ m ∈ ms, m.2.frame_id = ts ∧ m.2.lighthouse = ls ∧
        epochKey cfg.res m.1 = e := by
  unfold epochsFor
  have main : ∀ (l : List (ℚ × Light)) (es : List ℚ),
      e ∈ l.foldl
        (fun es m =>
          if m.2.frame_id = ts ∧ m.2.lighthouse = ls then
            insertKey (epochKey cfg.res m.1) es
          else es) es ↔
        (e ∈ es ∨ ∃ m ∈ l, m.2.frame_id = ts ∧ m.2.lighthouse = ls ∧
          epochKey cfg.res m.1 = e) := by
    intro l
    induction l with
    | nil => simp
    | cons m r ih =>
      intro es
      simp only [List.foldl_cons, ih, List.mem_cons]
      constructor
      · rintro (h | h)
        · split at h
          · rcases mem_insertKey.mp h with rfl | h
            · rename_i hc
              exact Or.inr ⟨m, Or.inl rfl, hc.1, hc.2, rfl⟩
            · exact Or.inl h
          · exact Or.inl h
        · rcases h with ⟨m', hm', hcond⟩
          exact Or.inr ⟨m', Or.inr hm', hcond⟩
      · rintro (h | ⟨m', hm' | hm', hcond⟩)
        · left
          split
          · exact mem_insertKey.mpr (Or.inr h)
          · exact h
        · subst hm'
          left
          rw [if_pos ⟨hcond.1, hcond.2.1⟩]
          exact mem_insertKey.mpr (Or.inl hcond.2.2.symm)
        · exact Or.inr ⟨m', hm', hcond⟩
  rw [main ms []]
  simp

/-! ## Bundling lemmas -/

/-- Pointwise effect of one `push_back` on the bundle. -/
theorem bundleAdd_apply (b : BundleFun) (F L : String) (K : ℚ) (sn A : Nat)
    (x : ℚ) (ts ls : String) (e : ℚ) (s a : Nat) :
    bundleAdd b F L K sn A x ts ls e s a =
      b ts ls e s a ++
        (if ts = F ∧ ls = L ∧ e = K ∧ s = sn ∧ a = A then [x] else []) := by
  unfold bundleAdd
  split <;> simp

/-- Pointwise effect of bundling one stored measurement. -/
theorem bundleObs_apply (cfg : Config) (b : BundleFun) (tm : ℚ) (l : Light)
    (ts ls : String) (e : ℚ) (s a : Nat) :
    bundleObs cfg b tm l ts ls e s a =
      b ts ls e s a ++ obsContrib cfg ts ls e s a (tm, l) := by
  unfold bundleObs obsContrib
  by_cases hC : l.frame_id = ts ∧ l.lighthouse = ls ∧
      epochKey cfg.res tm = e ∧ l.axis = a
  · rw [if_pos hC]
    induction l.pulses generalizing b with
    | nil => simp
    | cons p ps ih =>
      rw [List.foldl_cons, ih, bundleAdd_apply]
      by_cases hs : p.sensor = s
      · rw [if_pos ⟨hC.1.symm, hC.2.1.symm, hC.2.2.1.symm, hs.symm, hC.2.2.2.symm⟩]
        simp [List.filter_cons, hs]
      · rw [if_neg (fun h => hs h.2.2.2.1.symm)]
        simp [List.filter_cons, hs]
  · rw [if_neg hC]
    induction l.pulses generalizing b with
    | nil => simp
    | cons p ps ih =>
      rw [List.foldl_cons, ih, bundleAdd_apply]
      rw [if_neg (fun h => hC ⟨h.1.symm, h.2.1.symm, h.2.2.1.symm, h.2.2.2.2.symm⟩)]
      simp

/-- The bundle built by the bundling loop, in closed form: the bucket
`(ts, ls, e, s, a)` is the concatenation, in storage order, of the
matching measurements' pulse angles. -/
theorem bundleAll_apply (cfg : Config) (ms : List (ℚ × Light))
    (ts ls : String) (e : ℚ) (s a : Nat) :
    bundleAll cfg ms ts ls e s a =
      ms.flatMap (obsContrib cfg ts ls e s a) := by
  have main : ∀ (l : List (ℚ × Light)) (b : BundleFun),
      (l.foldl (fun b m => bundleObs cfg b m.1 m.2) b) ts ls e s a =
        b ts ls e s a ++ l.flatMap (obsContrib cfg ts ls e s a) := by
    intro l
    induction l with
    | nil => intro b; simp
    | cons m r ih =>
      intro b
      rw [List.foldl_cons, ih, bundleObs_apply]
      simp [List.append_assoc]
  rw [bundleAll, main ms bundleEmpty]
  rfl

/-! ## Claim theorems -/

/-- **C6** — The epoch key of an observation or correction is the pure
function `round(timestamp / r) * r` of its timestamp and the resolution
alone, so bundling is deterministic, idempotent and independent of
processing order: (1) a measurement contributes only to the bucket of
the epoch of its own timestamp; (2) the bundle is the order-respecting
concatenation of per-measurement contributions (so re-running bundling
on the same measurement map yields the same buckets); (3) permuting the
processed observation list leaves every bucket unchanged as a multiset;
(4) a correction is stored only under the epoch key of its own
timestamp. -/
theorem C6_epoch_bundling_pure :
    (∀ (cfg : Config) (tm : ℚ) (l : Light) (ts ls : String) (e : ℚ)
        (s a : Nat), e ≠ epochKey cfg.res tm →
        obsContrib cfg ts ls e s a (tm, l) = []) ∧
    (∀ (cfg : Config) (ms : List (ℚ × Light)) (ts ls : String) (e : ℚ)
        (s a : Nat),
        bundleAll cfg ms ts ls e s a =
          ms.flatMap (obsContrib cfg ts ls e s a)) ∧
    (∀ (cfg : Config) (ms₁ ms₂ : List (ℚ × Light)), ms₁.Perm ms₂ →
        ∀ (ts ls : String) (e : ℚ) (s a : Nat),
          (bundleAll cfg ms₁ ts ls e s a : Multiset ℚ) =
            (bundleAll cfg ms₂ ts ls e s a : Multiset ℚ)) ∧
    (∀ (cfg : Config) (q2aa : QuatToAA) (cs : List (ℚ × TransformS)) (e : ℚ),
        (∀ c ∈ cs, epochKey cfg.res c.1 ≠ e) →
        corrBundle cfg q2aa cs e = none) := by
  refine ⟨?_, bundleAll_apply, ?_, ?_⟩
  · intro cfg tm l ts ls e s a hne
    exact if_neg (fun h => hne h.2.2.1.symm)
  · intro cfg ms₁ ms₂ hperm ts ls e s a
    rw [bundleAll_apply, bundleAll_apply]
    exact Multiset.coe_eq_coe.mpr
      (List.Perm.flatMap_right (obsContrib cfg ts ls e s a) hperm)
  · intro cfg q2aa cs e hc
    unfold corrBundle
    have main : ∀ (l : List (ℚ × TransformS)) (f : ℚ → Option Pose6),
        (∀ c ∈ l, epochKey cfg.res c.1 ≠ e) → f e = none →
        (l.foldl
          (fun f c => fun e' =>
            if e' = epochKey cfg.res c.1 then some (corrPose q2aa c.2)
            else f e') f) e = none := by
      intro l
      induction l with
      | nil => intro f _ hf; exact hf
      | cons c r ih =>
        intro f hl hf
        rw [List.foldl_cons]
        refine ih _ (fun c' hc' => hl c' (List.mem_cons_of_mem _ hc')) ?_
        rw [if_neg (fun h => hl c (List.mem_cons_self _ _) h.symm)]
        exact hf
    exact main cs _ hc rfl

/-- **C6 witness** — concrete instantiations: a measurement at time
1/100 with resolution 1 contributes nothing to the bucket of epoch 1,
and swapping the first two observations of `msgsAB` leaves the
epoch-0 bucket of sensor 0, axis 0 unchanged as a multiset. -/
theorem C6_epoch_bundling_pure_witness :
    obsContrib cfgBase "T" "A" 1 0 0 (1/100, mkMsg "A" 0) = [] ∧
    (bundleAll cfgBase msgsAB "T" "A" 0 0 0 : Multiset ℚ) =
      (bundleAll cfgBase
        ((2/100, mkMsg "A" 1) :: (1/100, mkMsg "A" 0) :: msgsAB.drop 2)
        "T" "A" 0 0 0 : Multiset ℚ) := by
  constructor
  · exact C6_epoch_bundling_pure.1 cfgBase (1/100) (mkMsg "A" 0) "T" "A" 1 0 0
      (by with_unfolding_all exact of_decide_eq_true rfl)
  · exact C6_epoch_bundling_pure.2.2.1 cfgBase msgsAB
      ((2/100, mkMsg "A" 1) :: (1/100, mkMsg "A" 0) :: msgsAB.drop 2)
      (by unfold msgsAB; simp [List.Perm.swap]) "T" "A" 0 0 0

/-- **C1** — With an empty measurement map, `Solve()` returns `false`
without mutating the registration, any lighthouse or tracker state, or
any persisted downstream state, and produces no body poses. -/
theorem C1_empty_solve_fails_without_mutation
    (cfg : Config) (pnp : PnPOracle) (g : Globals)
    (corrs : List (ℚ × TransformS))
    (out : Globals × List (ℚ × Pose6) × Bool × Bool)
    (h : SolveRel cfg pnp g [] corrs out) : out = (g, [], false, false) := by
  cases h with
  | empty _ => rfl
  | solved g' w' usable hne _ => exact absurd rfl hne

/-- **C1 witness** — the empty-measurement solve over `gA`. -/
theorem C1_empty_solve_fails_without_mutation_witness :
    ((gA, [], false, false) : Globals × List (ℚ × Pose6) × Bool × Bool) =
      (gA, [], false, false) :=
  C1_empty_solve_fails_without_mutation cfgBase pnpAlways gA []
    (gA, [], false, false) (SolveRel.empty rfl)

/-- **C2** — When `refine_registration` is false, the six registration
parameters `wTv_` are identical before and after `Solve()`, for every
measurement set and configuration. -/
theorem C2_frozen_registration_unchanged
    (cfg : Config) (pnp : PnPOracle) (g : Globals)
    (ms : List (ℚ × Light)) (corrs : List (ℚ × TransformS))
    (g' : Globals) (w' : List (ℚ × Pose6)) (r p : Bool)
    (hreg : cfg.refine_registration = false)
    (h : SolveRel cfg pnp g ms corrs (g', w', r, p)) : g'.wTv = g.wTv := by
  cases h with
  | empty _ => rfl
  | solved _ _ usable hne hframe =>
    have hconst : isConstBlock cfg g.lighthouses g.trackers
        ((runBootstrap cfg pnp ms g.lighthouses g.trackers).wTb.map
          Prod.fst) BlockId.wTv = true := by
      simp [isConstBlock, hreg]
    exact hframe.1 hconst

/-- **C2 witness** — a non-empty solve with frozen registration over
empty lighthouse/tracker maps. -/
theorem C2_frozen_registration_unchanged_witness : gEmpty.wTv = gEmpty.wTv :=
  C2_frozen_registration_unchanged { cfgBase with refine_registration := false }
    pnpAlways gEmpty [(1/100, mkMsg "A" 0)] [] gEmpty [] true true rfl
    (SolveRel.solved gEmpty [] true (by simp)
      (by with_unfolding_all exact of_decide_eq_true rfl))

/-- **C9 counterexample** — the claim says the recording flag is false
for the entire duration of a solve; in the code `TriggerCallback` calls
`Solve()` **before** toggling `recording_`, so the flag is still `true`
while the solve runs.  Concretely: triggering in the recording state
`sysRec` performs a solve during which the flag reads `true`, not
`false`. -/
theorem C9_recording_during_solve_cex :
    TriggerRel cfgBase pnpAlways sysRec
      { state := { recording := false, globals := gA, measurements := []
                   corrections := [] }
        success := false
        message := "Recording stopped. Solution not found."
        recordingDuringSolve := some true } ∧
    (some true ≠ (some false : Option Bool)) :=
  ⟨TriggerRel.solve gA [] false false rfl (SolveRel.empty rfl), by simp⟩

/-- **C9 (amended)** — Triggering while recording invokes `Solve()`
while `recording_` is still `true`; the flag is flipped out of the
recording state only after `Solve()` returns, and the measurement and
correction accumulators are cleared regardless of the outcome.  (The
ingestion callbacks still cannot interleave with the solve, but that is
because ROS dispatches the node's callbacks on a single thread, not
because the flag was flipped first.) -/
theorem C9_solve_runs_while_recording
    (cfg : Config) (pnp : PnPOracle) (s : SysState) (out : TriggerOut)
    (hrec : s.recording = true) (h : TriggerRel cfg pnp s out) :
    out.recordingDuringSolve = some true ∧
    out.state.recording = false ∧
    out.state.measurements = [] ∧ out.state.corrections = [] := by
  cases h with
  | start hnot => rw [hrec] at hnot; cases hnot
  | solve g' w' usable persisted _ _ =>
    exact ⟨by simp [hrec], rfl, rfl, rfl⟩

/-- **C9 witness** — the amended statement at the concrete recording
state `sysRec`. -/
theorem C9_solve_runs_while_recording_witness :
    (({ state := { recording := false, globals := gA, measurements := []
                   corrections := [] }
        success := false
        message := "Recording stopped. Solution not found."
        recordingDuringSolve := some true } : TriggerOut)).recordingDuringSolve
        = some true ∧
    (({ state := { recording := false, globals := gA, measurements := []
                   corrections := [] }
        success := false
        message := "Recording stopped. Solution not found."
        recordingDuringSolve := some true } : TriggerOut)).state.recording
        = false ∧
    (({ state := { recording := false, globals := gA, measurements := []
                   corrections := [] }
        success := false
        message := "Recording stopped. Solution not found."
        recordingDuringSolve := some true } : TriggerOut)).state.measurements
        = [] ∧
    (({ state := { recording := false, globals := gA, measurements := []
                   corrections := [] }
        success := false
        message := "Recording stopped. Solution not found."
        recordingDuringSolve := some true } : TriggerOut)).state.corrections
        = [] :=
  C9_solve_runs_while_recording cfgBase pnpAlways sysRec _ rfl
    (TriggerRel.solve gA [] false false rfl (SolveRel.empty rfl))

/-- **C10** — A correction is stored only for a transform whose parent
frame equals the configured world frame and whose child frame equals
the configured body frame: (1) outside the recording state the callback
changes nothing; (2) the callback's result only depends on the matching
transforms of the message (all others are silently ignored); (3) every
stored correction either predates the call or satisfies the frame
condition. -/
theorem C10_correction_frame_filter
    (cfg : Config) (s : SysState) (tnow : ℚ) (msg : List TransformS) :
    (s.recording = false → correctionCallback cfg s tnow msg = s) ∧
    (correctionCallback cfg s tnow msg =
      correctionCallback cfg s tnow
        (msg.filter (fun t => decide (t.frame_id = cfg.frame_world) &&
          decide (t.child_frame_id = cfg.frame_body)))) ∧
    (∀ c ∈ (correctionCallback cfg s tnow msg).corrections,
      c ∈ s.corrections ∨
        (c.2.frame_id = cfg.frame_world ∧
          c.2.child_frame_id = cfg.frame_body)) := by
  refine ⟨?_, ?_, ?_⟩
  · intro hrec
    simp [correctionCallback, hrec]
  · unfold correctionCallback
    by_cases hrec : s.recording
    · simp only [hrec, Bool.not_true, Bool.false_eq_true, if_false]
      have main : ∀ (l : List TransformS) (cs : List (ℚ × TransformS)),
          l.foldl
            (fun cs t =>
              if t.frame_id = cfg.frame_world ∧
                  t.child_frame_id = cfg.frame_body then
                mapUpsert tnow t cs
              else cs) cs =
          (l.filter (fun t => decide (t.frame_id = cfg.frame_world) &&
            decide (t.child_frame_id = cfg.frame_body))).foldl
            (fun cs t =>
              if t.frame_id = cfg.frame_world ∧
                  t.child_frame_id = cfg.frame_body then
                mapUpsert tnow t cs
              else cs) cs := by
        intro l
        induction l with
        | nil => intro cs; rfl
        | cons t r ih =>
          intro cs
          by_cases ht : t.frame_id = cfg.frame_world ∧
              t.child_frame_id = cfg.frame_body
          · simp only [List.foldl_cons, List.filter_cons,
              decide_eq_true ht.1, decide_eq_true ht.2, Bool.and_self,
              if_pos ht, ih]
            simp [List.foldl_cons, if_pos ht]
          · have hbool : (decide (t.frame_id = cfg.frame_world) &&
                decide (t.child_frame_id = cfg.frame_body)) = false := by
              rcases not_and_or.mp ht with hx | hx <;> simp [hx]
            simp only [List.foldl_cons, List.filter_cons, hbool, if_neg ht,
              Bool.false_eq_true, if_false, ih]
      simp [main msg s.corrections]
    · simp [hrec]
  · unfold correctionCallback
    by_cases hrec : s.recording
    · simp only [hrec, Bool.not_true, Bool.false_eq_true, if_false]
      refine foldl_inv (P := fun cs : List (ℚ × TransformS) =>
        ∀ c ∈ cs, c ∈ s.corrections ∨
          (c.2.frame_id = cfg.frame_world ∧
            c.2.child_frame_id = cfg.frame_body)) msg s.corrections
        (fun c hc => Or.inl hc) ?_
      intro cs t _ hP c hc
      split at hc
      · rename_i ht
        rcases mem_mapUpsert hc with rfl | hc'
        · exact Or.inr ht
        · exact hP c hc'
      · exact hP c hc
    · simp only [hrec, Bool.not_false, if_true]
      intro c hc
      exact Or.inl hc

/-- **C10 witness** — at a concrete non-recording state the callback is
the identity. -/
theorem C10_correction_frame_filter_witness :
    correctionCallback cfgBase { sysRec with recording := false } 0
      [{ frame_id := "world", child_frame_id := "body", tx := 0, ty := 0
         tz := 0, qw := 1, qx := 0, qy := 0, qz := 0 }] =
      { sysRec with recording := false } :=
  (C10_correction_frame_filter cfgBase { sysRec with recording := false } 0
    [{ frame_id := "world", child_frame_id := "body", tx := 0, ty := 0
       tz := 0, qw := 1, qx := 0, qy := 0, qz := 0 }]).1 rfl

/-- **C4 counterexample** — the claim removes a pulse when its angle
exceeds the threshold **or** its duration is below the threshold; the
code (`LightCallback`, lines 600–601) removes it only when **both**
hold.  A single pulse with angle `2 > 60/57.2958` but duration
`2000000 ≥ 1/1e-6` is kept by the code — the observation is stored —
while under the claim's disjunctive filter no pulse survives and the
observation would have been dropped (`0 < thresh_count = 1`). -/
theorem C4_pulse_filter_cex :
    (lightCallback { cfgBase with thresh_count := 1 } sysRec 0
        { frame_id := "T", lighthouse := "A", axis := 0
          pulses := [⟨0, 2, 2000000⟩] }).measurements =
      [(0, { frame_id := "T", lighthouse := "A", axis := 0
             pulses := [⟨0, 2, 2000000⟩] })] ∧
    (([(⟨0, 2, 2000000⟩ : Pulse)].filter
        (fun p => !pulseErasedClaim { cfgBase with thresh_count := 1 } p)).length
      < ({ cfgBase with thresh_count := 1 } : Config).thresh_count) := by
  constructor
  · with_unfolding_all rfl
  · with_unfolding_all exact of_decide_eq_true rfl

/-- **C4 (amended)** — Provided the node is recording and the tracker
and lighthouse of the observation are registered and ready, the
observation is stored (under the current time, with the surviving
pulses) iff at least `thresh_count_` pulses survive removal of every
pulse whose angle exceeds `thresh_angle_/57.2958` **and** whose
duration is below `thresh_duration_/1e-6`; otherwise it is dropped
entirely and mutates nothing. -/
theorem C4_light_observation_filter
    (cfg : Config) (s : SysState) (tnow : ℚ) (msg : Light)
    (hrec : s.recording = true)
    (htr : (serialLookup msg.frame_id s.globals.trackers).elim false
      TR.ready = true)
    (hlh : (serialLookup msg.lighthouse s.globals.lighthouses).elim false
      LH.ready = true) :
    (cfg.thresh_count ≤
        (msg.pulses.filter (fun p => !pulseErased cfg p)).length →
      lightCallback cfg s tnow msg =
        { s with measurements :=
            (mapUpsert tnow
              ({ msg with pulses :=
                  msg.pulses.filter (fun p => !pulseErased cfg p) })
              s.measurements) }) ∧
    ((msg.pulses.filter (fun p => !pulseErased cfg p)).length <
        cfg.thresh_count →
      lightCallback cfg s tnow msg = s) := by
  have ht : (serialLookup msg.frame_id s.globals.trackers).isNone = false := by
    cases h : serialLookup msg.frame_id s.globals.trackers with
    | none => rw [h] at htr; simp at htr
    | some tr => rfl
  have hl : (serialLookup msg.lighthouse s.globals.lighthouses).isNone
      = false := by
    cases h : serialLookup msg.lighthouse s.globals.lighthouses with
    | none => rw [h] at hlh; simp at hlh
    | some lh => rfl
  unfold lightCallback
  simp only [hrec, ht, hl, htr, hlh, Bool.not_true, Bool.or_self,
    Bool.or_false, Bool.false_or, Bool.false_eq_true, if_false]
  constructor
  · intro hge
    rw [if_neg (not_lt.mpr hge)]
  · intro hlt
    rw [if_pos hlt]

/-- **C4 witness** — a four-pulse in-threshold observation arriving in
the recording state `sysRec` is stored. -/
theorem C4_light_observation_filter_witness :
    lightCallback cfgBase sysRec 0 (mkMsg "A" 0) =
      { sysRec with measurements :=
          (mapUpsert 0
            ({ mkMsg "A" 0 with pulses :=
                ((mkMsg "A" 0).pulses.filter
                  (fun p => !pulseErased cfgBase p)) })
            sysRec.measurements) } :=
  (C4_light_observation_filter cfgBase sysRec 0 (mkMsg "A" 0)
    rfl (by with_unfolding_all rfl) (by with_unfolding_all rfl)).1
    (by with_unfolding_all exact of_decide_eq_true rfl)

/-- **C3 counterexample** — the claim says exactly one lighthouse pose
block is held constant regardless of `refine_lighthouses`; but when
`refine_lighthouses` is false (as in `cfgBase`) the loop at lines
440–441 freezes **every** lighthouse pose: with the two lighthouses of
`gAB`, two `vTl` blocks are constant, not one. -/
theorem C3_gauge_freeze_cex :
    vTlConstCount cfgBase gAB.lighthouses gAB.trackers [] = 2 ∧
    cfgBase.refine_lighthouses = false ∧ (2 : Nat) ≠ 1 := by
  refine ⟨?_, rfl, by simp⟩
  with_unfolding_all rfl

/-- **C3 (amended)** — The pose block of the **first** lighthouse in
the map is held constant in every solve regardless of
`refine_lighthouses`, and its six pose parameters are unchanged by
`Solve()` even when `refine_lighthouses` is true; when
`refine_lighthouses` is true (and the serials are distinct) it is the
*only* lighthouse pose held constant, while when it is false every
lighthouse pose is held constant. -/
theorem C3_first_lighthouse_always_frozen
    (cfg : Config) (trs : List (String × TR)) (keys : List ℚ)
    (n : String) (lh : LH) (rest : List (String × LH)) :
    isConstBlock cfg ((n, lh) :: rest) trs keys (BlockId.vTl n) = true ∧
    (cfg.refine_lighthouses = true →
      (((n, lh) :: rest).map Prod.fst).Nodup →
      vTlConstCount cfg ((n, lh) :: rest) trs keys = 1) ∧
    (cfg.refine_lighthouses = false → ∀ m ∈ ((n, lh) :: rest).map Prod.fst,
      isConstBlock cfg ((n, lh) :: rest) trs keys (BlockId.vTl m) = true) ∧
    (∀ (pnp : PnPOracle) (g : Globals) (ms : List (ℚ × Light))
        (corrs : List (ℚ × TransformS)) (g' : Globals)
        (w' : List (ℚ × Pose6)) (r p : Bool),
      g.lighthouses = (n, lh) :: rest →
      SolveRel cfg pnp g ms corrs (g', w', r, p) →
      ∃ lh' rest', g'.lighthouses = (n, lh') :: rest' ∧ lh'.vTl = lh.vTl) := by
  have hConstFirst : isConstBlock cfg ((n, lh) :: rest) trs keys
      (BlockId.vTl n) = true := by
    simp [isConstBlock]
  refine ⟨hConstFirst, ?_, ?_, ?_⟩
  · intro hre hnd
    unfold vTlConstCount
    have hnd' : (n :: rest.map Prod.fst).Nodup := by simpa using hnd
    have hnotin : n ∉ rest.map Prod.fst := (List.nodup_cons.mp hnd').1
    simp only [List.map_cons, List.filter_cons, hConstFirst, if_pos]
    have hrest : (rest.map Prod.fst).filter
        (fun m => isConstBlock cfg ((n, lh) :: rest) trs keys
          (BlockId.vTl m)) = [] := by
      rw [List.filter_eq_nil_iff]
      intro m hm
      have hnm : ¬ (some n = some m) := by
        intro h
        exact hnotin ((Option.some.injEq _ _ ▸ h) ▸ hm)
      simp [isConstBlock, hre, hnm]
    rw [hrest]
    rfl
  · intro hre m hm
    simp only [isConstBlock, hre, Bool.not_false, Bool.true_or,
      Bool.and_true]
    simpa using hm
  · intro pnp g ms corrs g' w' r p hg hrel
    cases hrel with
    | empty _ =>
      exact ⟨lh, rest, hg, rfl⟩
    | solved _ _ usable hne hframe =>
      unfold CeresFrame at hframe
      obtain ⟨_, hlen, hball, _⟩ := hframe
      cases hG' : g'.lighthouses with
      | nil =>
        rw [hG'] at hlen
        rw [hg] at hlen
        simp at hlen
      | cons b rest' =>
        obtain ⟨b1, b2⟩ := b
        have hmemz : (((n, lh) : String × LH), ((b1, b2) : String × LH)) ∈
            g.lighthouses.zip g'.lighthouses := by
          rw [hg, hG', List.zip_cons_cons]
          exact List.mem_cons_self _ _
        have hfl := hball _ hmemz
        unfold frameLH at hfl
        obtain ⟨hb1, _, hvtl, _⟩ := hfl
        have hb1' : b1 = n := hb1
        have hvtl' : isConstBlock cfg g.lighthouses g.trackers
            ((runBootstrap cfg pnp ms g.lighthouses g.trackers).wTb.map
              Prod.fst) (BlockId.vTl n) = true → b2.vTl = lh.vTl := hvtl
        have hconst : isConstBlock cfg g.lighthouses g.trackers
            ((runBootstrap cfg pnp ms g.lighthouses g.trackers).wTb.map
              Prod.fst) (BlockId.vTl n) = true := by
          rw [hg]
          simp [isConstBlock]
        refine ⟨b2, rest', ?_, hvtl' hconst⟩
        rw [hb1']

/-- **C3 witness** — with `refine_lighthouses := true` over the two
lighthouses of `gAB`: the first serial "A" is frozen, the count of
frozen lighthouse poses is exactly 1, and an (empty-data) solve leaves
"A"'s pose untouched. -/
theorem C3_first_lighthouse_always_frozen_witness :
    isConstBlock { cfgBase with refine_lighthouses := true } gAB.lighthouses
      gAB.trackers [] (BlockId.vTl "A") = true ∧
    vTlConstCount { cfgBase with refine_lighthouses := true } gAB.lighthouses
      gAB.trackers [] = 1 ∧
    (∃ lh' rest', gAB.lighthouses = ("A", lh') :: rest' ∧
      lh'.vTl = lhReady.vTl) :=
  ⟨(C3_first_lighthouse_always_frozen
      { cfgBase with refine_lighthouses := true } gAB.trackers []
      "A" lhReady [("B", lhReady)]).1,
   (C3_first_lighthouse_always_frozen
      { cfgBase with refine_lighthouses := true } gAB.trackers []
      "A" lhReady [("B", lhReady)]).2.1 rfl
      (by with_unfolding_all exact of_decide_eq_true rfl),
   (C3_first_lighthouse_always_frozen
      { cfgBase with refine_lighthouses := true } gAB.trackers []
      "A" lhReady [("B", lhReady)]).2.2.2 pnpAlways gAB [] [] gAB []
      false false rfl (SolveRel.empty rfl)⟩

/-! ## Bootstrap-loop lemmas -/

/-- Complete case analysis of one bootstrap epoch step. -/
theorem stepEpoch_cases (cfg : Config) (pnp : PnPOracle) (b : BundleFun)
    (lt tt : String) (st : BootState) (e : ℚ) :
    (¬ 3 < countValid b lt tt e ∧ stepEpoch cfg pnp b lt tt st e = st) ∨
    (3 < countValid b lt tt e ∧ pnp lt tt e = none ∧
      stepEpoch cfg pnp b lt tt st e =
        { st with attempts := st.attempts ++ [(lt, tt, e)]
                  count := st.count + 1 }) ∨
    (∃ pose, 3 < countValid b lt tt e ∧ pnp lt tt e = some pose ∧
      stepEpoch cfg pnp b lt tt st e =
        { wTb := mapUpsert e
            (if cfg.force2d then { pose with rx := 0, ry := 0 } else pose)
            st.wTb
          heights := st.heights ++ [pose.pz]
          groupBlocks := st.groupBlocks ++ [(lt, tt, e)]
          motionLinks := st.motionLinks ++
            (if 0 < cfg.smoothing then
              (match predKey
                  (mapUpsert e
                    (if cfg.force2d then { pose with rx := 0, ry := 0 }
                     else pose) st.wTb) e with
               | some pk => [(pk, e)]
               | none => [])
             else [])
          attempts := st.attempts ++ [(lt, tt, e)]
          count := st.count + 1 }) := by
  by_cases hc : 3 < countValid b lt tt e
  · cases hp : pnp lt tt e with
    | none =>
      refine Or.inr (Or.inl ⟨hc, rfl, ?_⟩)
      unfold stepEpoch
      rw [if_pos hc, hp]
    | some pose =>
      refine Or.inr (Or.inr ⟨pose, hc, rfl, ?_⟩)
      unfold stepEpoch
      rw [if_pos hc, hp]
      dsimp only
      by_cases hs : 0 < cfg.smoothing
      · cases hpk : predKey
            (mapUpsert e
              (if cfg.force2d then { pose with rx := 0, ry := 0 } else pose)
              st.wTb) e with
        | none => simp [hs]
        | some pk => simp [hs]
      · simp [hs]
  · exact Or.inl ⟨hc, by unfold stepEpoch; rw [if_neg hc]⟩

/-- The attempt log of one step. -/
theorem stepEpoch_attempts (cfg : Config) (pnp : PnPOracle) (b : BundleFun)
    (lt tt : String) (st : BootState) (e : ℚ) :
    (stepEpoch cfg pnp b lt tt st e).attempts =
      st.attempts ++
        (if 3 < countValid b lt tt e then [(lt, tt, e)] else []) := by
  rcases stepEpoch_cases cfg pnp b lt tt st e with
    ⟨hc, heq⟩ | ⟨hc, _, heq⟩ | ⟨pose, hc, _, heq⟩
  · rw [heq, if_neg hc, List.append_nil]
  · rw [heq, if_pos hc]
  · rw [heq, if_pos hc]

/-- The attempt log of the fold over one pair's epochs. -/
theorem epochFold_attempts (cfg : Config) (pnp : PnPOracle) (b : BundleFun)
    (lt tt : String) :
    ∀ (es : List ℚ) (st : BootState),
      ((es.foldl (stepEpoch cfg pnp b lt tt) st)).attempts =
        st.attempts ++
          ((es.filter (fun e => decide (3 < countValid b lt tt e))).map
            (fun e => (lt, tt, e))) := by
  intro es
  induction es with
  | nil => intro st; simp
  | cons e r ih =>
    intro st
    rw [List.foldl_cons, ih, stepEpoch_attempts, List.filter_cons]
    by_cases hc : 3 < countValid b lt tt e
    · simp [hc]
    · simp [hc]

/-- Per-pair attempt lists. -/
def attemptsOfPair (cfg : Config) (ms : List (ℚ × Light)) (lt tt : String) :
    List (String × String × ℚ) :=
  ((epochsFor cfg ms tt lt).filter
    (fun e => decide (3 < countValid (bundleAll cfg ms) lt tt e))).map
    (fun e => (lt, tt, e))

/-- The attempt log of the whole bootstrap, in closed form. -/
theorem runBootstrap_attempts (cfg : Config) (pnp : PnPOracle)
    (ms : List (ℚ × Light)) (lhs : List (String × LH))
    (trs : List (String × TR)) :
    (runBootstrap cfg pnp ms lhs trs).attempts =
      lhs.flatMap (fun lp => trs.flatMap
        (fun tp => attemptsOfPair cfg ms lp.1 tp.1)) := by
  have inner : ∀ (lp : String × LH) (l : List (String × TR)) (st : BootState),
      (l.foldl
        (fun st tp =>
          (epochsFor cfg ms tp.1 lp.1).foldl
            (stepEpoch cfg pnp (bundleAll cfg ms) lp.1 tp.1) st) st).attempts =
      st.attempts ++ l.flatMap (fun tp => attemptsOfPair cfg ms lp.1 tp.1) := by
    intro lp l
    induction l with
    | nil => intro st; simp
    | cons tp r ih =>
      intro st
      rw [List.foldl_cons, ih, epochFold_attempts]
      simp [attemptsOfPair, List.append_assoc]
  have outer : ∀ (l : List (String × LH)) (st : BootState),
      (l.foldl
        (fun st lp =>
          trs.foldl
            (fun st tp =>
              (epochsFor cfg ms tp.1 lp.1).foldl
                (stepEpoch cfg pnp (bundleAll cfg ms) lp.1 tp.1) st) st)
        st).attempts =
      st.attempts ++ l.flatMap (fun lp => trs.flatMap
        (fun tp => attemptsOfPair cfg ms lp.1 tp.1)) := by
    intro l
    induction l with
    | nil => intro st; simp
    | cons lp r ih =>
      intro st
      rw [List.foldl_cons, ih, inner]
      simp [List.append_assoc]
  rw [runBootstrap, outer]
  rfl

/-- A sensor axis with a positive valid count pins the epoch into the
pair's epoch list. -/
theorem countValid_mem_epochsFor {cfg : Config} {ms : List (ℚ × Light)}
    {lt tt : String} {e : ℚ}
    (h : 0 < countValid (bundleAll cfg ms) lt tt e) :
    e ∈ epochsFor cfg ms tt lt := by
  unfold countValid at h
  rcases List.length_pos_iff_exists_mem.mp h with ⟨s, hs⟩
  have hs' := List.of_mem_filter hs
  have hsome : (meanSamples (bundleAll cfg ms tt lt e s 0)).isSome = true := by
    exact (Bool.and_eq_true _ _ |>.mp hs').1
  have hne : bundleAll cfg ms tt lt e s 0 ≠ [] := by
    intro hnil
    rw [hnil] at hsome
    simp [meanSamples] at hsome
  rw [bundleAll_apply] at hne
  rcases List.exists_mem_of_ne_nil _ hne with ⟨x, hx⟩
  rcases List.mem_flatMap.mp hx with ⟨m, hm, hxm⟩
  unfold obsContrib at hxm
  by_cases hcond : m.2.frame_id = tt ∧ m.2.lighthouse = lt ∧
      epochKey cfg.res m.1 = e ∧ m.2.axis = 0
  · exact mem_epochsFor.mpr ⟨m, hm, hcond.1, hcond.2.1, hcond.2.2.1⟩
  · rw [if_neg hcond] at hxm
    cases hxm

/-- Fold-invariance principle for the whole bootstrap loop. -/
theorem runBootstrap_inv (cfg : Config) (pnp : PnPOracle)
    (ms : List (ℚ × Light)) {lhs : List (String × LH)}
    {trs : List (String × TR)} {P : BootState → Prop}
    (h0 : P bootInit)
    (hstep : ∀ lp tp st e, lp ∈ lhs → tp ∈ trs → P st →
      P (stepEpoch cfg pnp (bundleAll cfg ms) lp.1 tp.1 st e)) :
    P (runBootstrap cfg pnp ms lhs trs) := by
  rw [runBootstrap]
  refine foldl_inv (P := P) lhs bootInit h0 ?_
  intro st lp hlp hP
  refine foldl_inv (P := P) trs st hP ?_
  intro st' tp htp hP'
  refine foldl_inv (P := P) _ st' hP' ?_
  intro st'' e _ hP''
  exact hstep lp tp st'' e hlp htp hP''

/-- Keys after an upsert are the new key or old keys. -/
theorem mem_keys_mapUpsert {α : Type} {k' : ℚ} {v : α}
    {m : List (ℚ × α)} {k : ℚ}
    (h : k ∈ (mapUpsert k' v m).map Prod.fst) :
    k = k' ∨ k ∈ m.map Prod.fst := by
  rcases List.mem_map.mp h with ⟨ep, hep, rfl⟩
  rcases mem_mapUpsert hep with rfl | hep'
  · exact Or.inl rfl
  · exact Or.inr (List.mem_map_of_mem _ hep')

/-- **C5** — For every `(lighthouse, tracker, epoch)` triple a bootstrap
perspective solve is attempted iff both serials are in the maps and at
least 4 sensors have at least one sample on both sweep axes in that
epoch; and an epoch for which every pair has at most 3 such valid
sensor correspondences never enters the body-pose map, never receives a
bearing residual group, and appears in no motion-smoothness link. -/
theorem C5_bootstrap_requires_four_correspondences
    (cfg : Config) (pnp : PnPOracle) (ms : List (ℚ × Light))
    (lhs : List (String × LH)) (trs : List (String × TR)) :
    (∀ lt tt e, (lt, tt, e) ∈ (runBootstrap cfg pnp ms lhs trs).attempts ↔
      (lt ∈ lhs.map Prod.fst ∧ tt ∈ trs.map Prod.fst ∧
        4 ≤ countValid (bundleAll cfg ms) lt tt e)) ∧
    (∀ e, (∀ lp ∈ lhs, ∀ tp ∈ trs,
        countValid (bundleAll cfg ms) lp.1 tp.1 e ≤ 3) →
      e ∉ (runBootstrap cfg pnp ms lhs trs).wTb.map Prod.fst ∧
      (∀ gb ∈ (runBootstrap cfg pnp ms lhs trs).groupBlocks, gb.2.2 ≠ e) ∧
      (∀ ln ∈ (runBootstrap cfg pnp ms lhs trs).motionLinks,
        ln.1 ≠ e ∧ ln.2 ≠ e)) := by
  constructor
  · intro lt tt e
    rw [runBootstrap_attempts]
    constructor
    · intro h
      rcases List.mem_flatMap.mp h with ⟨lp, hlp, h2⟩
      rcases List.mem_flatMap.mp h2 with ⟨tp, htp, h3⟩
      unfold attemptsOfPair at h3
      rcases List.mem_map.mp h3 with ⟨e', he', heq⟩
      obtain ⟨h1, h2', h3'⟩ : lp.1 = lt ∧ tp.1 = tt ∧ e' = e := by
        have := heq
        rw [Prod.mk.injEq, Prod.mk.injEq] at this
        exact ⟨this.1, this.2.1, this.2.2⟩
      have hcv : 3 < countValid (bundleAll cfg ms) lp.1 tp.1 e' :=
        of_decide_eq_true ((List.mem_filter.mp he').2)
      refine ⟨?_, ?_, ?_⟩
      · exact h1 ▸ List.mem_map_of_mem _ hlp
      · exact h2' ▸ List.mem_map_of_mem _ htp
      · rw [← h1, ← h2', ← h3']
        omega
    · rintro ⟨hlt, htt, hcv⟩
      rcases List.mem_map.mp hlt with ⟨lp, hlp, hlp1⟩
      rcases List.mem_map.mp htt with ⟨tp, htp, htp1⟩
      refine List.mem_flatMap.mpr ⟨lp, hlp, List.mem_flatMap.mpr
        ⟨tp, htp, ?_⟩⟩
      unfold attemptsOfPair
      have hcv' : 3 < countValid (bundleAll cfg ms) lp.1 tp.1 e := by
        rw [hlp1, htp1]
        omega
      refine List.mem_map.mpr ⟨e, List.mem_filter.mpr ⟨?_, ?_⟩, ?_⟩
      · refine @countValid_mem_epochsFor cfg ms lp.1 tp.1 e ?_
        omega
      · exact decide_eq_true hcv'
      · rw [hlp1, htp1]
  · intro e hno
    have main : (∀ k ∈ (runBootstrap cfg pnp ms lhs trs).wTb.map Prod.fst,
          k ≠ e) ∧
        (∀ gb ∈ (runBootstrap cfg pnp ms lhs trs).groupBlocks,
          gb.2.2 ≠ e) ∧
        (∀ ln ∈ (runBootstrap cfg pnp ms lhs trs).motionLinks,
          ln.1 ≠ e ∧ ln.2 ≠ e) := by
      refine runBootstrap_inv cfg pnp ms
        (P := fun st =>
          (∀ k ∈ st.wTb.map Prod.fst, k ≠ e) ∧
          (∀ gb ∈ st.groupBlocks, gb.2.2 ≠ e) ∧
          (∀ ln ∈ st.motionLinks, ln.1 ≠ e ∧ ln.2 ≠ e))
        (by simp [bootInit]) ?_
      intro lp tp st e' hlp htp hP
      rcases stepEpoch_cases cfg pnp (bundleAll cfg ms) lp.1 tp.1 st e' with
        ⟨_, heq⟩ | ⟨_, _, heq⟩ | ⟨pose, hcv, _, heq⟩
      · rw [heq]; exact hP
      · rw [heq]; exact hP
      · have hee : e' ≠ e := by
          intro hcontra
          rw [hcontra] at hcv
          exact absurd hcv (not_lt.mpr (hno lp hlp tp htp))
        rw [heq]
        refine ⟨?_, ?_, ?_⟩
        · intro k hk
          rcases mem_keys_mapUpsert hk with rfl | hk'
          · exact hee
          · exact hP.1 k hk'
        · intro gb hgb
          rcases List.mem_append.mp hgb with hgb | hgb
          · exact hP.2.1 gb hgb
          · rw [List.mem_singleton.mp hgb]
            exact hee
        · intro ln hln
          rcases List.mem_append.mp hln with hln | hln
          · exact hP.2.2 ln hln
          · have hln' := hln
            split at hln'
            · rename_i hsm
              revert hln'
              split
              · rename_i pk hpk
                intro hln'
                rw [List.mem_singleton.mp hln']
                refine ⟨?_, hee⟩
                rcases mem_keys_mapUpsert (predKey_mem hpk) with rfl | hpk'
                · exact hee
                · exact hP.1 _ hpk'
              · intro hln'
                cases hln'
            · cases hln'
    exact ⟨fun hmem => main.1 e hmem rfl, main.2.1, main.2.2⟩

/-- **C5 witness** — with four-sensor data (`msgsA`) the epoch-0 solve
for ("A", "T") is attempted, and with three-sensor data (`msgsA3`)
epoch 0 produces no body pose, no bearing group and no motion link. -/
theorem C5_bootstrap_requires_four_correspondences_witness :
    ("A", "T", (0 : ℚ)) ∈
      (runBootstrap cfgBase pnpAlways msgsA gA.lighthouses
        gA.trackers).attempts ∧
    (0 : ℚ) ∉ (runBootstrap cfgBase pnpAlways msgsA3 gA.lighthouses
      gA.trackers).wTb.map Prod.fst :=
  ⟨((C5_bootstrap_requires_four_correspondences cfgBase pnpAlways msgsA
      gA.lighthouses gA.trackers).1 "A" "T" 0).mpr
      ⟨by with_unfolding_all exact of_decide_eq_true rfl,
       by with_unfolding_all exact of_decide_eq_true rfl,
       by with_unfolding_all exact of_decide_eq_true rfl⟩,
   ((C5_bootstrap_requires_four_correspondences cfgBase pnpAlways msgsA3
      gA.lighthouses gA.trackers).2 0
      (by with_unfolding_all exact of_decide_eq_true rfl)).1⟩

/-- Under `force2d_`, every seeded body pose has both horizontal-axis
rotation components zeroed. -/
theorem runBootstrap_force2d_rot (cfg : Config) (pnp : PnPOracle)
    (ms : List (ℚ × Light)) (lhs : List (String × LH))
    (trs : List (String × TR)) (h2d : cfg.force2d = true) :
    ∀ ep ∈ (runBootstrap cfg pnp ms lhs trs).wTb,
      ep.2.rx = 0 ∧ ep.2.ry = 0 := by
  refine runBootstrap_inv cfg pnp ms
    (P := fun st => ∀ ep ∈ st.wTb, ep.2.rx = 0 ∧ ep.2.ry = 0)
    (by simp [bootInit]) ?_
  intro lp tp st e _ _ hP
  rcases stepEpoch_cases cfg pnp (bundleAll cfg ms) lp.1 tp.1 st e with
    ⟨_, heq⟩ | ⟨_, _, heq⟩ | ⟨pose, _, _, heq⟩
  · rw [heq]; exact hP
  · rw [heq]; exact hP
  · rw [heq]
    intro ep hep
    rcases mem_mapUpsert hep with rfl | hep'
    · simp [h2d]
    · exact hP ep hep'

/-- Under `force2d_`, every prepared body pose has the mean seeded
height and zero horizontal rotations, and its epoch is a bootstrap
key. -/
theorem preparedWTb_force2d (cfg : Config) (bs : BootState)
    (h2d : cfg.force2d = true)
    (hrot : ∀ ep ∈ bs.wTb, ep.2.rx = 0 ∧ ep.2.ry = 0) :
    ∀ ep ∈ preparedWTb cfg bs,
      ep.2.pz = meanQ bs.heights ∧ ep.2.rx = 0 ∧ ep.2.ry = 0 ∧
        ep.1 ∈ bs.wTb.map Prod.fst := by
  intro ep hep
  unfold preparedWTb at hep
  rw [if_pos h2d] at hep
  rcases List.mem_map.mp hep with ⟨ep0, hep0, rfl⟩
  refine ⟨rfl, (hrot ep0 hep0).1, (hrot ep0 hep0).2, ?_⟩
  show ep0.1 ∈ bs.wTb.map Prod.fst
  exact List.mem_map_of_mem _ hep0

/-- **C7** — With the planar-motion constraint enabled, after a
successful solve every body pose has vertical position equal to the
mean of the bootstrap-seeded heights (hence all identical) and both
horizontal-axis rotation components equal to the frozen initial value
0 to which they were seeded. -/
theorem C7_force2d_planar_poses
    (cfg : Config) (pnp : PnPOracle) (g : Globals) (ms : List (ℚ × Light))
    (corrs : List (ℚ × TransformS)) (g' : Globals)
    (w' : List (ℚ × Pose6)) (pers : Bool)
    (h2d : cfg.force2d = true)
    (h : SolveRel cfg pnp g ms corrs (g', w', true, pers)) :
    ∀ ep ∈ w',
      ep.2.pz =
        meanQ (runBootstrap cfg pnp ms g.lighthouses g.trackers).heights ∧
      ep.2.rx = 0 ∧ ep.2.ry = 0 := by
  cases h with
  | solved _ _ usable hne hframe =>
    unfold CeresFrame at hframe
    obtain ⟨_, _, _, _, _, hwlen, hwball⟩ := hframe
    intro ep hep
    rcases zip_pair_of_mem_right hwlen hep with ⟨ep0, hep0, hz⟩
    have hfp := hwball _ hz
    unfold framePose at hfp
    have hpz : isConstBlock cfg g.lighthouses g.trackers
        ((runBootstrap cfg pnp ms g.lighthouses g.trackers).wTb.map
          Prod.fst) (BlockId.posZ ep0.1) = true →
        ep.2.pz = ep0.2.pz := hfp.2.2.1
    have hrxy : isConstBlock cfg g.lighthouses g.trackers
        ((runBootstrap cfg pnp ms g.lighthouses g.trackers).wTb.map
          Prod.fst) (BlockId.rotXY ep0.1) = true →
        ep.2.rx = ep0.2.rx ∧ ep.2.ry = ep0.2.ry := hfp.2.2.2.1
    have hprep := preparedWTb_force2d cfg
      (runBootstrap cfg pnp ms g.lighthouses g.trackers) h2d
      (runBootstrap_force2d_rot cfg pnp ms g.lighthouses g.trackers h2d)
      ep0 hep0
    have hkz : ep0.1 ∈
        (runBootstrap cfg pnp ms g.lighthouses g.trackers).wTb.map
          Prod.fst := hprep.2.2.2
    have hcz : isConstBlock cfg g.lighthouses g.trackers
        ((runBootstrap cfg pnp ms g.lighthouses g.trackers).wTb.map
          Prod.fst) (BlockId.posZ ep0.1) = true := by
      simp [isConstBlock, h2d, hkz]
    have hcr : isConstBlock cfg g.lighthouses g.trackers
        ((runBootstrap cfg pnp ms g.lighthouses g.trackers).wTb.map
          Prod.fst) (BlockId.rotXY ep0.1) = true := by
      simp [isConstBlock, h2d, hkz]
    refine ⟨?_, ?_, ?_⟩
    · rw [hpz hcz, hprep.1]
    · rw [(hrxy hcr).1, hprep.2.1]
    · rw [(hrxy hcr).2, hprep.2.2.1]

/-- **C7 witness** — the planar scenario `cfg7`/`msgsA`: after a
successful solve both epochs' poses sit at the mean seeded height 5
with zero horizontal rotations. -/
theorem C7_force2d_planar_poses_witness :
    p7.pz = meanQ bs7.heights ∧ p7.rx = 0 ∧ p7.ry = 0 :=
  C7_force2d_planar_poses cfg7 pnpAlways gA msgsA [] gA w07 true rfl
    (SolveRel.solved gA w07 true
      (by with_unfolding_all exact of_decide_eq_true rfl)
      (by with_unfolding_all exact of_decide_eq_true rfl))
    ((0 : ℚ), p7)
    (by with_unfolding_all exact of_decide_eq_true rfl)

/-- Over an ascending epoch list, the bootstrap fold keeps the body-pose
keys ascending and the motion links exactly the consecutive pairs of
those keys (one link per newly seeded epoch with a predecessor). -/
theorem chain_fold (cfg : Config) (pnp : PnPOracle) (b : BundleFun)
    (lt tt : String) (hsm : 0 < cfg.smoothing) :
    ∀ (es : List ℚ) (st : BootState),
      es.Pairwise (· < ·) →
      (st.wTb.map Prod.fst).Pairwise (· < ·) →
      (∀ e ∈ es, ∀ x ∈ st.wTb.map Prod.fst, x < e) →
      st.motionLinks = chainPairs (st.wTb.map Prod.fst) →
      (((es.foldl (stepEpoch cfg pnp b lt tt) st).wTb.map
          Prod.fst).Pairwise (· < ·)) ∧
      (es.foldl (stepEpoch cfg pnp b lt tt) st).motionLinks =
        chainPairs
          ((es.foldl (stepEpoch cfg pnp b lt tt) st).wTb.map Prod.fst) := by
  intro es
  induction es with
  | nil =>
    intro st _ h2 _ h4
    exact ⟨h2, h4⟩
  | cons e r ih =>
    intro st hp hsorted hbound hlinks
    rw [List.foldl_cons]
    have hpr := (List.pairwise_cons.mp hp).2
    have hpe := (List.pairwise_cons.mp hp).1
    have hbe : ∀ x ∈ st.wTb.map Prod.fst, x < e :=
      hbound e (List.mem_cons_self _ _)
    rcases stepEpoch_cases cfg pnp b lt tt st e with
      ⟨_, heq⟩ | ⟨_, _, heq⟩ | ⟨pose, _, _, heq⟩
    · rw [heq]
      exact ih st hpr hsorted
        (fun e' he' => hbound e' (List.mem_cons_of_mem _ he')) hlinks
    · rw [heq]
      exact ih _ hpr hsorted
        (fun e' he' => hbound e' (List.mem_cons_of_mem _ he')) hlinks
    · rw [heq]
      have hupsert : mapUpsert e
          (if cfg.force2d then { pose with rx := 0, ry := 0 } else pose)
          st.wTb =
          st.wTb ++
            [(e, if cfg.force2d then { pose with rx := 0, ry := 0 }
              else pose)] :=
        mapUpsert_append hbe
      refine ih _ hpr ?_ ?_ ?_
      · show ((mapUpsert e
            (if cfg.force2d then { pose with rx := 0, ry := 0 } else pose)
            st.wTb).map Prod.fst).Pairwise (· < ·)
        rw [hupsert, List.map_append]
        rw [List.pairwise_append]
        refine ⟨hsorted, by simp, ?_⟩
        intro x hx y hy
        rcases List.mem_singleton.mp (by simpa using hy) with rfl
        exact hbe x hx
      · intro e' he' x hx
        rw [hupsert, List.map_append] at hx
        rcases List.mem_append.mp hx with hx | hx
        · exact hbound e' (List.mem_cons_of_mem _ he') x hx
        · rcases List.mem_singleton.mp (by simpa using hx) with rfl
          exact hpe e' he'
      · show st.motionLinks ++
            (if 0 < cfg.smoothing then
              (match predKey
                  (mapUpsert e
                    (if cfg.force2d then { pose with rx := 0, ry := 0 }
                     else pose) st.wTb) e with
               | some pk => [(pk, e)]
               | none => []) else []) =
          chainPairs
            ((mapUpsert e
              (if cfg.force2d then { pose with rx := 0, ry := 0 }
               else pose) st.wTb).map Prod.fst)
        rw [if_pos hsm, hupsert, predKey_append hbe, List.map_append]
        simp only [List.map_cons, List.map_nil]
        rw [chainPairs_append, hlinks]

/-- With a zero smoothing weight no motion-smoothness link is ever
recorded. -/
theorem runBootstrap_no_smoothing (cfg : Config) (pnp : PnPOracle)
    (ms : List (ℚ × Light)) (lhs : List (String × LH))
    (trs : List (String × TR)) (hsm : cfg.smoothing = 0) :
    (runBootstrap cfg pnp ms lhs trs).motionLinks = [] := by
  refine runBootstrap_inv cfg pnp ms
    (P := fun st => st.motionLinks = []) rfl ?_
  intro lp tp st e _ _ hP
  rcases stepEpoch_cases cfg pnp (bundleAll cfg ms) lp.1 tp.1 st e with
    ⟨_, heq⟩ | ⟨_, _, heq⟩ | ⟨pose, _, _, heq⟩
  · rw [heq]; exact hP
  · rw [heq]; exact hP
  · rw [heq]
    show st.motionLinks ++ _ = []
    rw [if_neg (by rw [hsm]; exact lt_irrefl 0), List.append_nil]
    exact hP

/-- **C8 counterexample** — the claim says a positive smoothing weight
and exactly two seeded epochs produce exactly one motion-smoothness
block; but the smoothing link is re-added every time a later
(lighthouse, tracker) pair re-seeds the second epoch.  With lighthouses
"A" and "B" both observing the same two epochs (`msgsAB`), the solver
seeds exactly two epochs yet records **two** motion links. -/
theorem C8_motion_link_cex :
    (runBootstrap cfgBase pnpAlways msgsAB gAB.lighthouses
      gAB.trackers).wTb.map Prod.fst = [0, 1] ∧
    (0 : ℚ) < cfgBase.smoothing ∧
    (runBootstrap cfgBase pnpAlways msgsAB gAB.lighthouses
      gAB.trackers).motionLinks = [(0, 1), (0, 1)] := by
  refine ⟨?_, ?_, ?_⟩
  · with_unfolding_all rfl
  · with_unfolding_all exact of_decide_eq_true rfl
  · with_unfolding_all rfl

/-- **C8 (amended)** — With a single lighthouse and a single tracker:
if the smoothing weight is positive and the bootstrap seeds body poses
for exactly two epochs, exactly one motion-smoothness link is added and
it joins the two epochs in ascending order; the `MotionCost` residual
is `(previous component − next component) × smoothing` for each of the
six pose components; and with smoothing weight 0 no motion link is ever
added (for any maps).  With several (lighthouse, tracker) pairs a link
between the same two epochs can be added once per re-seeding pair. -/
theorem C8_motion_smoothing_block :
    (∀ (cfg : Config) (pnp : PnPOracle) (ms : List (ℚ × Light))
        (ln : String) (lv : LH) (tn : String) (tv : TR)
        (e1 e2 : ℚ) (p1 p2 : Pose6),
      0 < cfg.smoothing →
      (runBootstrap cfg pnp ms [(ln, lv)] [(tn, tv)]).wTb =
        [(e1, p1), (e2, p2)] →
      (runBootstrap cfg pnp ms [(ln, lv)] [(tn, tv)]).motionLinks =
        [(e1, e2)] ∧ e1 < e2) ∧
    (∀ (s : ℚ) (prev next : Pose6),
      motionResidual s prev next =
        [(prev.px - next.px) * s, (prev.py - next.py) * s,
         (prev.pz - next.pz) * s, (prev.rx - next.rx) * s,
         (prev.ry - next.ry) * s, (prev.rz - next.rz) * s]) ∧
    (∀ (cfg : Config) (pnp : PnPOracle) (ms : List (ℚ × Light))
        (lhs : List (String × LH)) (trs : List (String × TR)),
      cfg.smoothing = 0 →
      (runBootstrap cfg pnp ms lhs trs).motionLinks = []) := by
  refine ⟨?_, ?_, runBootstrap_no_smoothing⟩
  · intro cfg pnp ms ln lv tn tv e1 e2 p1 p2 hsm hw
    have hsingle : runBootstrap cfg pnp ms [(ln, lv)] [(tn, tv)] =
        (epochsFor cfg ms tn ln).foldl
          (stepEpoch cfg pnp (bundleAll cfg ms) ln tn) bootInit := rfl
    have hchain := chain_fold cfg pnp (bundleAll cfg ms) ln tn hsm
      (epochsFor cfg ms tn ln) bootInit
      (epochsFor_pairwise cfg ms tn ln) (by simp [bootInit])
      (by simp [bootInit]) (by simp [bootInit, chainPairs])
    rw [← hsingle] at hchain
    rw [hw] at hchain
    refine ⟨?_, ?_⟩
    · rw [hchain.2]
      rfl
    · have := hchain.1
      simp only [List.map_cons, List.map_nil] at this
      exact (List.pairwise_cons.mp this).1 e2 (by simp)
  · intro s prev next
    simp [motionResidual]

/-- **C8 witness** — the single-lighthouse scenario `msgsA` (two epochs
at 0 and 1, four valid sensors each, smoothing 10): exactly one motion
link `(0, 1)` is recorded, and the residual of the concrete poses
`seedPose`, `zeroPose` under weight 10 is as claimed. -/
theorem C8_motion_smoothing_block_witness :
    ((runBootstrap cfgBase pnpAlways msgsA [("A", lhReady)]
        [("T", trReady)]).motionLinks = [(0, 1)] ∧ (0 : ℚ) < 1) ∧
    motionResidual 10 seedPose zeroPose =
      [(seedPose.px - zeroPose.px) * 10, (seedPose.py - zeroPose.py) * 10,
       (seedPose.pz - zeroPose.pz) * 10, (seedPose.rx - zeroPose.rx) * 10,
       (seedPose.ry - zeroPose.ry) * 10,
       (seedPose.rz - zeroPose.rz) * 10] :=
  ⟨C8_motion_smoothing_block.1 cfgBase pnpAlways msgsA "A" lhReady "T"
      trReady 0 1 seedPose seedPose
      (by with_unfolding_all exact of_decide_eq_true rfl)
      (by with_unfolding_all rfl),
   C8_motion_smoothing_block.2.1 10 seedPose zeroPose⟩

end Deepdive
